import Mathlib

/-!
Verification of the collaborative code editor client (`src/hooks/use-websocket.ts`
and the join-room page). The client keeps four pieces of React state: the code
string, a connection record, a `Map` of users and a `Map` of cursors. Incoming
WebSocket messages are dispatched by `handleMessage`; outgoing updates are sent
by `sendCodeUpdate` / `sendCursorMove` only when the socket is open.

JavaScript `Map`s are embedded as association lists with unique-key `set` /
`delete` / `get` mimicking `Map.prototype.set` (replace in place or append),
`delete` and `get` (first matching key).
-/

namespace Coed

/-- `CursorPosition` from the client types: 1-based line/column plus a color. -/
structure CursorPosition where
  line : Int
  column : Int
  color : String
deriving Repr, DecidableEq

/-- Entry of the client's `users` map: `{ id, color }`. -/
structure UserEntry where
  id : String
  color : String
deriving Repr, DecidableEq

/-- The `connectionState` React state of `useWebSocket`. -/
structure ConnectionState where
  isConnected : Bool
  error : Option String
  userId : Option String
  userColor : Option String
deriving Repr, DecidableEq

/-- A JavaScript `Map` with string keys, as an association list. -/
abbrev JsMap (α : Type) := List (String × α)

/-- `Map.prototype.get`: value at the first matching key. -/
def mapGet {α : Type} : JsMap α → String → Option α
  | [], _ => none
  | (k', v') :: rest, k => if k' = k then some v' else mapGet rest k

/-- `Map.prototype.set`: replace the value in place if the key is present,
otherwise append the new entry. -/
def mapSet {α : Type} : JsMap α → String → α → JsMap α
  | [], k, v => [(k, v)]
  | (k', v') :: rest, k, v =>
    if k' = k then (k, v) :: rest else (k', v') :: mapSet rest k v

/-- `Map.prototype.delete`: remove the entry with the given key. -/
def mapDelete {α : Type} : JsMap α → String → JsMap α
  | [], _ => []
  | (k', v') :: rest, k =>
    if k' = k then mapDelete rest k else (k', v') :: mapDelete rest k

/-- The four React states managed by `useWebSocket`. -/
structure ClientState where
  code : String
  connectionState : ConnectionState
  users : JsMap UserEntry
  cursors : JsMap CursorPosition
deriving Repr, DecidableEq

/-- The parsed server-to-client messages of the wire protocol
(`init`, `code_update`, `cursor_move`, `user_joined`, `user_left`). -/
inductive ServerMessage where
  | init (code : String) (users : List String)
      (cursors : List (String × CursorPosition))
      (your_user_id : String) (your_color : String)
  | code_update (code : String) (user_id : String)
  | cursor_move (user_id : String) (line : Int) (column : Int) (color : String)
  | user_joined (user_id : String) (color : String)
  | user_left (user_id : String)
deriving Repr, DecidableEq

/-- The `init` case builds the users map from the user-id list: each id maps to
`{ id, color }` where the color is `your_color` for the client's own id and the
placeholder `"#999"` for everyone else. -/
def buildUsersMap (users : List String) (yourId yourColor : String) :
    JsMap UserEntry :=
  users.foldl
    (fun m userId =>
      mapSet m userId
        ⟨userId, if userId = yourId then yourColor else "#999"⟩)
    []

/-- The `init` case builds the cursors map entry by entry from the payload's
cursor object. -/
def buildCursorsMap (entries : List (String × CursorPosition)) :
    JsMap CursorPosition :=
  entries.foldl (fun m p => mapSet m p.1 p.2) []

/-- `handleMessage` of `useWebSocket`, on an already-parsed message: the
`switch (message.type)` of the source. -/
def handleMessage (s : ClientState) : ServerMessage → ClientState
  | .init c users curs yourId yourColor =>
    { s with
      code := c
      connectionState :=
        { s.connectionState with
          userId := some yourId
          userColor := some yourColor }
      users := buildUsersMap users yourId yourColor
      cursors := buildCursorsMap curs }
  | .code_update c _ => { s with code := c }
  | .cursor_move u line column color =>
    { s with cursors := mapSet s.cursors u ⟨line, column, color⟩ }
  | .user_joined u color =>
    { s with users := mapSet s.users u ⟨u, color⟩ }
  | .user_left u =>
    { s with
      users := mapDelete s.users u
      cursors := mapDelete s.cursors u }

/-- An incoming `MessageEvent` as `handleMessage` sees it: either it parses to
a known message, or `JSON.parse` throws (caught by the surrounding
`try`/`catch`, which only logs), or it parses but its `type` matches no case of
the `switch` (which has no `default`). -/
inductive RawMessage where
  | parsed (m : ServerMessage)
  | unparseable
  | unknownType
deriving Repr, DecidableEq

/-- A client session: the React state plus whether the socket is still open and
how many `WebSocket` objects have been constructed so far. `handleMessage`
only calls state setters; it never closes the socket or opens a new one. -/
structure ClientSession where
  state : ClientState
  socketOpen : Bool
  socketGeneration : Nat
deriving Repr, DecidableEq

/-- The full `handleMessage` including the `try`/`catch` and the `switch`
fallthrough: malformed or unknown messages change nothing, and the handler
never touches the socket. -/
def handleRaw (sess : ClientSession) : RawMessage → ClientSession
  | .parsed m => { sess with state := handleMessage sess.state m }
  | .unparseable => sess
  | .unknownType => sess

/-- A close event delivered to `ws.onclose`; `code` 1000 is normal closure. -/
structure CloseEvent where
  code : Nat
deriving Repr, DecidableEq

/-- A timeout registered with `setTimeout`, by its delay. -/
structure ScheduledTimeout where
  delayMs : Nat
deriving Repr, DecidableEq

/-- `ws.onclose`: set `isConnected` to false and, when the close code is not
1000, schedule a 3000 ms timeout (stored in `reconnectTimeoutRef`). -/
def wsOnClose (s : ConnectionState) (e : CloseEvent) :
    ConnectionState × Option ScheduledTimeout :=
  ({ s with isConnected := false },
   if e.code ≠ 1000 then some ⟨3000⟩ else none)

/-- The body of the timeout scheduled by `ws.onclose`. In the source it is
`() => { // Trigger re-render to reconnect }`: an empty function. It performs
no state update and constructs no `WebSocket`. -/
def reconnectTimeoutCallback (sess : ClientSession) : ClientSession := sess

/-- `WebSocket.OPEN`. -/
def WS_OPEN : Nat := 1

/-- The fields of the `WebSocket` object the send helpers read. -/
structure Socket where
  readyState : Nat
deriving Repr, DecidableEq

/-- Client-to-server wire messages (`JSON.stringify` payloads). -/
inductive ClientWire where
  | code_update (code : String)
  | cursor_move (line : Int) (column : Int)
deriving Repr, DecidableEq

/-- `sendCodeUpdate`: if `wsRef.current` exists and is `OPEN`, send exactly one
`{type: "code_update", code}` message; otherwise send nothing. Returns the
list of messages put on the wire. -/
def sendCodeUpdate (ws : Option Socket) (newCode : String) : List ClientWire :=
  match ws with
  | some s => if s.readyState = WS_OPEN then [.code_update newCode] else []
  | none => []

/-- `sendCursorMove`: if `wsRef.current` exists and is `OPEN`, send exactly one
`{type: "cursor_move", line, column}` message; otherwise send nothing. -/
def sendCursorMove (ws : Option Socket) (line column : Int) : List ClientWire :=
  match ws with
  | some s => if s.readyState = WS_OPEN then [.cursor_move line column] else []
  | none => []

/-- Response of the room-existence HTTP check, `{exists, room_id}`. -/
structure RoomExistsResponse where
  exists_ : Bool
  room_id : String
deriving Repr, DecidableEq

/-- Observable outcome of `handleJoinRoom` on the home page: either the router
navigates to a path, or an error message is surfaced via `setError`. -/
inductive JoinOutcome where
  | navigate (path : String)
  | showError (msg : String)
deriving Repr, DecidableEq

/-- JavaScript `String.prototype.trim()`: strip leading and trailing
whitespace, modelled over the character list. -/
def jsTrim (s : String) : String :=
  String.mk
    (((s.data.dropWhile Char.isWhitespace).reverse.dropWhile
      Char.isWhitespace).reverse)

/-- `handleJoinRoom` of the home page: an empty (trimmed) code is rejected
locally; otherwise the existence check runs, navigation happens only on
`exists = true`, a missing room surfaces "Room not found...", and a failed
request surfaces "Failed to check room...". -/
def handleJoinRoom (joinCode : String)
    (checkResult : Except Unit RoomExistsResponse) : JoinOutcome :=
  if jsTrim joinCode = "" then
    .showError "Please enter a room code"
  else
    match checkResult with
    | .ok r =>
      if r.exists_ then .navigate ("/" ++ jsTrim joinCode)
      else .showError "Room not found. Check the code and try again."
    | .error _ =>
      .showError "Failed to check room. Make sure backend is running."

/-- The invariant that every key of the cursors map is a key of the users map,
as a boolean over the client state. -/
def cursorsSubsetUsers (s : ClientState) : Bool :=
  s.cursors.all (fun p => (mapGet s.users p.1).isSome)

/-! ### Lemmas about the `Map` embedding -/

theorem mapGet_set_self {α : Type} (m : JsMap α) (k : String) (v : α) :
    mapGet (mapSet m k v) k = some v := by
  induction m with
  | nil => simp [mapSet, mapGet]
  | cons p rest ih =>
    obtain ⟨k', v'⟩ := p
    by_cases h : k' = k
    · simp [mapSet, h, mapGet]
    · simp [mapSet, h, mapGet, ih]

theorem mapGet_set_ne {α : Type} (m : JsMap α) (k k' : String) (v : α)
    (h : k' ≠ k) : mapGet (mapSet m k v) k' = mapGet m k' := by
  have hks : k ≠ k' := Ne.symm h
  induction m with
  | nil => simp [mapSet, mapGet, hks]
  | cons p rest ih =>
    obtain ⟨k₀, v₀⟩ := p
    by_cases hk : k₀ = k
    · subst hk
      simp [mapSet, mapGet, hks]
    · simp only [mapSet, if_neg hk, mapGet]
      by_cases hk' : k₀ = k'
      · simp [hk']
      · simp [hk', ih]

theorem mapGet_delete_self {α : Type} (m : JsMap α) (k : String) :
    mapGet (mapDelete m k) k = none := by
  induction m with
  | nil => simp [mapDelete, mapGet]
  | cons p rest ih =>
    obtain ⟨k', v'⟩ := p
    by_cases h : k' = k
    · simp [mapDelete, h, ih]
    · simp [mapDelete, h, mapGet, ih]

theorem mapGet_delete_ne {α : Type} (m : JsMap α) (k k' : String)
    (h : k' ≠ k) : mapGet (mapDelete m k) k' = mapGet m k' := by
  have hks : k ≠ k' := Ne.symm h
  induction m with
  | nil => simp [mapDelete]
  | cons p rest ih =>
    obtain ⟨k₀, v₀⟩ := p
    by_cases hk : k₀ = k
    · subst hk
      simp [mapDelete, mapGet, hks, ih]
    · simp only [mapDelete, if_neg hk, mapGet]
      by_cases hk' : k₀ = k'
      · simp [hk']
      · simp [hk', ih]

theorem mem_mapSet {α : Type} (m : JsMap α) (k : String) (v : α)
    (p : String × α) (hp : p ∈ mapSet m k v) : p = (k, v) ∨ p ∈ m := by
  induction m with
  | nil => simpa [mapSet] using hp
  | cons q rest ih =>
    obtain ⟨k₀, v₀⟩ := q
    by_cases hk : k₀ = k
    · simp only [mapSet, if_pos hk, List.mem_cons] at hp
      rcases hp with h | h
      · exact Or.inl h
      · exact Or.inr (List.mem_cons_of_mem _ h)
    · simp only [mapSet, if_neg hk, List.mem_cons] at hp
      rcases hp with h | h
      · exact Or.inr (by simp [h])
      · rcases ih h with h' | h'
        · exact Or.inl h'
        · exact Or.inr (List.mem_cons_of_mem _ h')

theorem mem_mapDelete {α : Type} (m : JsMap α) (k : String)
    (p : String × α) (hp : p ∈ mapDelete m k) : p ∈ m ∧ p.1 ≠ k := by
  induction m with
  | nil => simp [mapDelete] at hp
  | cons q rest ih =>
    obtain ⟨k₀, v₀⟩ := q
    by_cases hk : k₀ = k
    · simp only [mapDelete, if_pos hk] at hp
      obtain ⟨h₁, h₂⟩ := ih hp
      exact ⟨List.mem_cons_of_mem _ h₁, h₂⟩
    · simp only [mapDelete, if_neg hk, List.mem_cons] at hp
      rcases hp with h | h
      · refine ⟨by simp [h], ?_⟩
        subst h; exact hk
      · obtain ⟨h₁, h₂⟩ := ih h
        exact ⟨List.mem_cons_of_mem _ h₁, h₂⟩

theorem mapGet_isSome_of_mem {α : Type} (m : JsMap α) (p : String × α)
    (hp : p ∈ m) : (mapGet m p.1).isSome := by
  induction m with
  | nil => simp at hp
  | cons q rest ih =>
    obtain ⟨k₀, v₀⟩ := q
    rcases List.mem_cons.mp hp with h | h
    · subst h; simp [mapGet]
    · by_cases hk : k₀ = p.1
      · simp [mapGet, hk]
      · simp [mapGet, hk, ih h]

theorem exists_mem_of_mapGet_isSome {α : Type} (m : JsMap α) (k : String)
    (h : (mapGet m k).isSome) : ∃ v, (k, v) ∈ m := by
  induction m with
  | nil => simp [mapGet] at h
  | cons q rest ih =>
    obtain ⟨k₀, v₀⟩ := q
    by_cases hk : k₀ = k
    · subst hk; exact ⟨v₀, by simp⟩
    · simp only [mapGet, if_neg hk] at h
      obtain ⟨v, hv⟩ := ih h
      exact ⟨v, List.mem_cons_of_mem _ hv⟩

/-- Lookup in a fold of `mapSet` where the value is a function of the key:
membership in the key list decides the result. -/
theorem mapGet_foldl_set (f : String → UserEntry) (us : List String)
    (m0 : JsMap UserEntry) (u : String) :
    mapGet (us.foldl (fun m x => mapSet m x (f x)) m0) u =
      if u ∈ us then some (f u) else mapGet m0 u := by
  induction us generalizing m0 with
  | nil => simp
  | cons x rest ih =>
    simp only [List.foldl_cons]
    rw [ih]
    by_cases hmem : u ∈ rest
    · simp [hmem]
    · by_cases hx : x = u
      · subst hx
        simp [hmem, mapGet_set_self]
      · have hux : u ≠ x := fun h => hx h.symm
        simp [hmem, hux, mapGet_set_ne _ _ _ _ hux]

theorem mapGet_eq_none_of_not_mem {α : Type} (m : JsMap α) (u : String)
    (h : u ∉ m.map Prod.fst) : mapGet m u = none := by
  induction m with
  | nil => simp [mapGet]
  | cons q rest ih =>
    obtain ⟨k₀, v₀⟩ := q
    simp only [List.map_cons, List.mem_cons] at h
    push_neg at h
    have hk : k₀ ≠ u := Ne.symm h.1
    simp [mapGet, hk, ih h.2]

/-- Lookup in a fold of `mapSet` over key/value pairs with pairwise-distinct
keys: the pairs shadow the initial map. -/
theorem mapGet_foldl_set_pairs {α : Type} (entries : List (String × α))
    (h : (entries.map Prod.fst).Nodup) (m0 : JsMap α) (u : String) :
    mapGet (entries.foldl (fun m p => mapSet m p.1 p.2) m0) u =
      match mapGet entries u with
      | some v => some v
      | none => mapGet m0 u := by
  induction entries generalizing m0 with
  | nil => simp [mapGet]
  | cons p rest ih =>
    obtain ⟨k₀, v₀⟩ := p
    simp only [List.map_cons, List.nodup_cons] at h
    obtain ⟨hk₀, hrest⟩ := h
    simp only [List.foldl_cons]
    rw [ih hrest]
    by_cases hk : k₀ = u
    · subst hk
      rw [mapGet_eq_none_of_not_mem rest k₀ hk₀]
      simp [mapGet, mapGet_set_self]
    · have hne : u ≠ k₀ := fun h' => hk h'.symm
      rw [mapGet_set_ne _ _ _ _ hne]
      simp [mapGet, hk]

theorem mapGet_buildUsersMap (us : List String) (yourId yourColor : String)
    (u : String) :
    mapGet (buildUsersMap us yourId yourColor) u =
      if u ∈ us then
        some ⟨u, if u = yourId then yourColor else "#999"⟩
      else none := by
  unfold buildUsersMap
  rw [mapGet_foldl_set (fun x => ⟨x, if x = yourId then yourColor else "#999"⟩)]
  simp [mapGet]

theorem mapGet_buildCursorsMap (entries : List (String × CursorPosition))
    (h : (entries.map Prod.fst).Nodup) (u : String) :
    mapGet (buildCursorsMap entries) u = mapGet entries u := by
  unfold buildCursorsMap
  rw [mapGet_foldl_set_pairs entries h]
  cases hE : mapGet entries u <;> simp [mapGet, hE]

theorem mem_buildCursorsMap (entries : List (String × CursorPosition))
    (p : String × CursorPosition) (hp : p ∈ buildCursorsMap entries) :
    p.1 ∈ entries.map Prod.fst := by
  unfold buildCursorsMap at hp
  suffices h : ∀ (m0 : JsMap CursorPosition),
      p ∈ entries.foldl (fun m q => mapSet m q.1 q.2) m0 →
      p.1 ∈ entries.map Prod.fst ∨ p ∈ m0 by
    rcases h [] hp with h' | h'
    · exact h'
    · simp at h'
  clear hp
  induction entries with
  | nil => intro m0 hp; exact Or.inr hp
  | cons q rest ih =>
    intro m0 hp
    simp only [List.foldl_cons] at hp
    rcases ih _ hp with h' | h'
    · exact Or.inl (by simp [h'])
    · rcases mem_mapSet _ _ _ _ h' with h'' | h''
      · exact Or.inl (by simp [h''])
      · exact Or.inr h''

/-! ### Claim theorems -/

/-- Folding a nonempty run of `code_update` messages: the code ends up equal
to the last update's payload, whatever the senders are. -/
theorem code_after_code_updates (rest : List (String × String))
    (p : String × String) (s : ClientState) :
    ((p :: rest).foldl
        (fun st q => handleMessage st (.code_update q.1 q.2)) s).code =
      ((p :: rest).getLast (List.cons_ne_nil p rest)).1 := by
  induction rest generalizing p s with
  | nil => simp [handleMessage]
  | cons q t ih =>
    rw [List.foldl_cons, List.getLast_cons (List.cons_ne_nil q t)]
    exact ih q (handleMessage s (.code_update p.1 p.2))

/-- C1: for every sequence of incoming `code_update` messages applied by the
client's message handler, from any mix of sender user ids, the code state
after the sequence equals the code payload of the last applied update,
independent of sender. -/
theorem C1_code_update_last_write_wins (s : ClientState)
    (updates : List (String × String)) (h : updates ≠ []) :
    (updates.foldl
        (fun st q => handleMessage st (.code_update q.1 q.2)) s).code =
      (updates.getLast h).1 := by
  cases updates with
  | nil => exact absurd rfl h
  | cons p rest => exact code_after_code_updates rest p s

/-- Witness for C1 at a concrete three-update sequence with mixed senders. -/
theorem C1_code_update_last_write_wins_witness :
    ([("a", "u1"), ("b", "u2"), ("c", "u1")] : List (String × String)) ≠ [] ∧
    (([("a", "u1"), ("b", "u2"), ("c", "u1")] : List (String × String)).foldl
        (fun st q => handleMessage st (.code_update q.1 q.2))
        ⟨"", ⟨false, none, none, none⟩, [], []⟩).code = "c" :=
  ⟨by decide,
   C1_code_update_last_write_wins ⟨"", ⟨false, none, none, none⟩, [], []⟩
     [("a", "u1"), ("b", "u2"), ("c", "u1")] (by decide)⟩

/-- C4: an unparseable message (the `catch` branch) or a message of unknown
type (no matching `switch` case) leaves the whole client state unchanged, does
not close the socket, and leaves handling of any later message unaffected. -/
theorem C4_malformed_message_dropped (sess : ClientSession)
    (next : RawMessage) :
    handleRaw sess .unparseable = sess ∧
    handleRaw sess .unknownType = sess ∧
    (handleRaw sess .unparseable).socketOpen = sess.socketOpen ∧
    (handleRaw sess .unknownType).socketOpen = sess.socketOpen ∧
    handleRaw (handleRaw sess .unparseable) next = handleRaw sess next ∧
    handleRaw (handleRaw sess .unknownType) next = handleRaw sess next :=
  ⟨rfl, rfl, rfl, rfl, rfl, rfl⟩

/-- C5: handling `cursor_move` for user U sets U's cursor entry to exactly the
message's line/column/color and changes no other user's entry (nor the code or
the users map). -/
theorem C5_cursor_move_upserts_only_sender (s : ClientState) (u : String)
    (line column : Int) (color : String) (v : String) (hv : v ≠ u) :
    mapGet (handleMessage s (.cursor_move u line column color)).cursors u =
        some ⟨line, column, color⟩ ∧
    mapGet (handleMessage s (.cursor_move u line column color)).cursors v =
        mapGet s.cursors v ∧
    (handleMessage s (.cursor_move u line column color)).users = s.users ∧
    (handleMessage s (.cursor_move u line column color)).code = s.code := by
  refine ⟨?_, ?_, rfl, rfl⟩
  · simp [handleMessage, mapGet_set_self]
  · simp [handleMessage, mapGet_set_ne _ _ _ _ hv]

/-- Witness for C5: a concrete state where user "v" already has a cursor and a
`cursor_move` for "u" arrives. -/
theorem C5_cursor_move_upserts_only_sender_witness :
    ("v" : String) ≠ "u" ∧
    (mapGet (handleMessage
        ⟨"x", ⟨true, none, none, none⟩, [("v", ⟨"v", "#0f0"⟩)],
          [("v", ⟨5, 6, "#0f0"⟩)]⟩
        (.cursor_move "u" 1 2 "#f00")).cursors "u" = some ⟨1, 2, "#f00"⟩ ∧
     mapGet (handleMessage
        ⟨"x", ⟨true, none, none, none⟩, [("v", ⟨"v", "#0f0"⟩)],
          [("v", ⟨5, 6, "#0f0"⟩)]⟩
        (.cursor_move "u" 1 2 "#f00")).cursors "v" =
        mapGet ([("v", ⟨5, 6, "#0f0"⟩)] : JsMap CursorPosition) "v" ∧
     (handleMessage
        ⟨"x", ⟨true, none, none, none⟩, [("v", ⟨"v", "#0f0"⟩)],
          [("v", ⟨5, 6, "#0f0"⟩)]⟩
        (.cursor_move "u" 1 2 "#f00")).users =
        [("v", ⟨"v", "#0f0"⟩)] ∧
     (handleMessage
        ⟨"x", ⟨true, none, none, none⟩, [("v", ⟨"v", "#0f0"⟩)],
          [("v", ⟨5, 6, "#0f0"⟩)]⟩
        (.cursor_move "u" 1 2 "#f00")).code = "x") :=
  ⟨by decide,
   C5_cursor_move_upserts_only_sender
     ⟨"x", ⟨true, none, none, none⟩, [("v", ⟨"v", "#0f0"⟩)],
       [("v", ⟨5, 6, "#0f0"⟩)]⟩
     "u" 1 2 "#f00" "v" (by decide)⟩

/-- C6: handling `user_left(U)` removes U from both the users map and the
cursors map, and leaves every other user's entries unchanged. -/
theorem C6_user_left_removes_user_and_cursor (s : ClientState) (u v : String)
    (hv : v ≠ u) :
    mapGet (handleMessage s (.user_left u)).users u = none ∧
    mapGet (handleMessage s (.user_left u)).cursors u = none ∧
    mapGet (handleMessage s (.user_left u)).users v = mapGet s.users v ∧
    mapGet (handleMessage s (.user_left u)).cursors v = mapGet s.cursors v :=
  ⟨by simp [handleMessage, mapGet_delete_self],
   by simp [handleMessage, mapGet_delete_self],
   by simp [handleMessage, mapGet_delete_ne _ _ _ hv],
   by simp [handleMessage, mapGet_delete_ne _ _ _ hv]⟩

/-- Witness for C6: both "u" and "v" are present; `user_left("u")` arrives. -/
theorem C6_user_left_removes_user_and_cursor_witness :
    ("v" : String) ≠ "u" ∧
    (mapGet (handleMessage
        ⟨"", ⟨true, none, none, none⟩,
          [("u", ⟨"u", "#f00"⟩), ("v", ⟨"v", "#0f0"⟩)],
          [("u", ⟨1, 1, "#f00"⟩), ("v", ⟨2, 2, "#0f0"⟩)]⟩
        (.user_left "u")).users "u" = none ∧
     mapGet (handleMessage
        ⟨"", ⟨true, none, none, none⟩,
          [("u", ⟨"u", "#f00"⟩), ("v", ⟨"v", "#0f0"⟩)],
          [("u", ⟨1, 1, "#f00"⟩), ("v", ⟨2, 2, "#0f0"⟩)]⟩
        (.user_left "u")).cursors "u" = none ∧
     mapGet (handleMessage
        ⟨"", ⟨true, none, none, none⟩,
          [("u", ⟨"u", "#f00"⟩), ("v", ⟨"v", "#0f0"⟩)],
          [("u", ⟨1, 1, "#f00"⟩), ("v", ⟨2, 2, "#0f0"⟩)]⟩
        (.user_left "u")).users "v" =
        mapGet ([("u", ⟨"u", "#f00"⟩), ("v", ⟨"v", "#0f0"⟩)] :
          JsMap UserEntry) "v" ∧
     mapGet (handleMessage
        ⟨"", ⟨true, none, none, none⟩,
          [("u", ⟨"u", "#f00"⟩), ("v", ⟨"v", "#0f0"⟩)],
          [("u", ⟨1, 1, "#f00"⟩), ("v", ⟨2, 2, "#0f0"⟩)]⟩
        (.user_left "u")).cursors "v" =
        mapGet ([("u", ⟨1, 1, "#f00"⟩), ("v", ⟨2, 2, "#0f0"⟩)] :
          JsMap CursorPosition) "v") :=
  ⟨by decide,
   C6_user_left_removes_user_and_cursor
     ⟨"", ⟨true, none, none, none⟩,
       [("u", ⟨"u", "#f00"⟩), ("v", ⟨"v", "#0f0"⟩)],
       [("u", ⟨1, 1, "#f00"⟩), ("v", ⟨2, 2, "#0f0"⟩)]⟩
     "u" "v" (by decide)⟩

/-- C10: when the socket is absent or not OPEN, `sendCodeUpdate` and
`sendCursorMove` send nothing (and, being pure, raise nothing and queue
nothing); when the socket is OPEN, each sends exactly one message of its wire
shape. -/
theorem C10_send_only_when_open (ws : Option Socket) (c : String)
    (line column : Int) :
    (ws = none →
      sendCodeUpdate ws c = [] ∧ sendCursorMove ws line column = []) ∧
    (∀ sck : Socket, ws = some sck → sck.readyState ≠ WS_OPEN →
      sendCodeUpdate ws c = [] ∧ sendCursorMove ws line column = []) ∧
    (∀ sck : Socket, ws = some sck → sck.readyState = WS_OPEN →
      sendCodeUpdate ws c = [.code_update c] ∧
      sendCursorMove ws line column = [.cursor_move line column]) := by
  refine ⟨?_, ?_, ?_⟩
  · intro h; subst h; exact ⟨rfl, rfl⟩
  · intro sck h hrs; subst h
    exact ⟨by simp [sendCodeUpdate, hrs], by simp [sendCursorMove, hrs]⟩
  · intro sck h hrs; subst h
    exact ⟨by simp [sendCodeUpdate, hrs], by simp [sendCursorMove, hrs]⟩

/-- Witness for C10: an OPEN socket (`readyState = 1`) sends exactly one
message; a CONNECTING socket (`readyState = 0`) and a missing socket send
none. -/
theorem C10_send_only_when_open_witness :
    (sendCodeUpdate (some ⟨1⟩) "x" = [.code_update "x"] ∧
      sendCursorMove (some ⟨1⟩) 2 3 = [.cursor_move 2 3]) ∧
    (sendCodeUpdate (some ⟨0⟩) "x" = [] ∧ sendCursorMove (some ⟨0⟩) 2 3 = []) ∧
    (sendCodeUpdate none "x" = [] ∧ sendCursorMove (none) 2 3 = []) :=
  ⟨(C10_send_only_when_open (some ⟨1⟩) "x" 2 3).2.2 ⟨1⟩ rfl rfl,
   (C10_send_only_when_open (some ⟨0⟩) "x" 2 3).2.1 ⟨0⟩ rfl (by decide),
   (C10_send_only_when_open none "x" 2 3).1 rfl⟩

/-- C7: with a nonempty (trimmed) room code, `handleJoinRoom` surfaces the
"Room not found" error and does not navigate when the existence check returns
`exists = false`; it navigates exactly when the check returns `exists = true`. -/
theorem C7_join_refused_when_room_missing (joinCode : String)
    (checkResult : Except Unit RoomExistsResponse)
    (hcode : jsTrim joinCode ≠ "") :
    (∀ rid, checkResult = .ok ⟨false, rid⟩ →
      handleJoinRoom joinCode checkResult =
        .showError "Room not found. Check the code and try again.") ∧
    (∀ path, handleJoinRoom joinCode checkResult = .navigate path →
      ∃ rid, checkResult = .ok ⟨true, rid⟩) ∧
    (∀ rid, checkResult = .ok ⟨true, rid⟩ →
      handleJoinRoom joinCode checkResult =
        .navigate ("/" ++ jsTrim joinCode)) := by
  refine ⟨?_, ?_, ?_⟩
  · intro rid h; subst h; simp [handleJoinRoom, hcode]
  · intro path h
    unfold handleJoinRoom at h
    rw [if_neg hcode] at h
    cases checkResult with
    | error e => simp at h
    | ok r =>
      obtain ⟨ex, rid⟩ := r
      cases ex with
      | false => simp at h
      | true => exact ⟨rid, rfl⟩
  · intro rid h; subst h; simp [handleJoinRoom, hcode]

/-- Witness for C7 at the concrete room code "abc". -/
theorem C7_join_refused_when_room_missing_witness :
    jsTrim "abc" ≠ "" ∧
    handleJoinRoom "abc" (.ok ⟨false, "abc"⟩) =
      .showError "Room not found. Check the code and try again." ∧
    handleJoinRoom "abc" (.ok ⟨true, "abc"⟩) =
      .navigate ("/" ++ jsTrim "abc") :=
  ⟨by decide,
   (C7_join_refused_when_room_missing "abc" (.ok ⟨false, "abc"⟩)
      (by decide)).1 "abc" rfl,
   (C7_join_refused_when_room_missing "abc" (.ok ⟨true, "abc"⟩)
      (by decide)).2.2 "abc" rfl⟩

/-- C8: `init` seeds the state from the one message: the code is the payload's
code, the connection record gains the client's own id and color (other fields
untouched), the users map's keys are exactly the payload's user list, and the
cursors map looks up entry-for-entry like the payload's cursor object (whose
keys, coming from a JSON object, are distinct). -/
theorem C8_init_seeds_state (s : ClientState) (c : String)
    (us : List String) (curs : List (String × CursorPosition))
    (yourId yourColor : String)
    (hnd : (curs.map Prod.fst).Nodup) :
    (handleMessage s (.init c us curs yourId yourColor)).code = c ∧
    (handleMessage s (.init c us curs yourId yourColor)).connectionState =
      { s.connectionState with
        userId := some yourId
        userColor := some yourColor } ∧
    (∀ u, (mapGet
        (handleMessage s (.init c us curs yourId yourColor)).users u).isSome
      ↔ u ∈ us) ∧
    (∀ u, mapGet
        (handleMessage s (.init c us curs yourId yourColor)).cursors u =
      mapGet curs u) := by
  refine ⟨rfl, rfl, ?_, ?_⟩
  · intro u
    simp only [handleMessage, mapGet_buildUsersMap]
    by_cases h : u ∈ us <;> simp [h]
  · intro u
    simp only [handleMessage]
    exact mapGet_buildCursorsMap curs hnd u

/-- Witness for C8 at the spec's own example: code "print(1)", users
[u1, new], cursors {u1 ↦ (2,3,c1)}, own id "new". -/
theorem C8_init_seeds_state_witness :
    (([("u1", (⟨2, 3, "c1"⟩ : CursorPosition))].map Prod.fst)).Nodup ∧
    ((handleMessage ⟨"", ⟨false, none, none, none⟩, [], []⟩
        (.init "print(1)" ["u1", "new"] [("u1", ⟨2, 3, "c1"⟩)]
          "new" "#ff0")).code = "print(1)" ∧
     (handleMessage ⟨"", ⟨false, none, none, none⟩, [], []⟩
        (.init "print(1)" ["u1", "new"] [("u1", ⟨2, 3, "c1"⟩)]
          "new" "#ff0")).connectionState =
        ⟨false, none, some "new", some "#ff0"⟩ ∧
     ((mapGet (handleMessage ⟨"", ⟨false, none, none, none⟩, [], []⟩
        (.init "print(1)" ["u1", "new"] [("u1", ⟨2, 3, "c1"⟩)]
          "new" "#ff0")).users "u1").isSome ↔ "u1" ∈ ["u1", "new"]) ∧
     mapGet (handleMessage ⟨"", ⟨false, none, none, none⟩, [], []⟩
        (.init "print(1)" ["u1", "new"] [("u1", ⟨2, 3, "c1"⟩)]
          "new" "#ff0")).cursors "u1" =
        mapGet ([("u1", ⟨2, 3, "c1"⟩)] : JsMap CursorPosition) "u1") := by
  have h := C8_init_seeds_state ⟨"", ⟨false, none, none, none⟩, [], []⟩
    "print(1)" ["u1", "new"] [("u1", ⟨2, 3, "c1"⟩)] "new" "#ff0" (by decide)
  exact ⟨by decide, h.1, h.2.1, h.2.2.1 "u1", h.2.2.2 "u1"⟩

/-- C9: after `init`, every listed user other than the client's own id gets
the placeholder color "#999" in the users map; a later `user_joined` for that
user overwrites the entry with the user's real color. -/
theorem C9_init_placeholder_color (s : ClientState) (c : String)
    (us : List String) (curs : List (String × CursorPosition))
    (yourId yourColor : String) (u : String) (hu : u ∈ us)
    (hne : u ≠ yourId) :
    mapGet (handleMessage s (.init c us curs yourId yourColor)).users u =
      some ⟨u, "#999"⟩ ∧
    ∀ (sLater : ClientState) (color : String),
      mapGet (handleMessage sLater (.user_joined u color)).users u =
        some ⟨u, color⟩ := by
  constructor
  · simp [handleMessage, mapGet_buildUsersMap, hu, hne]
  · intro sLater color
    simp [handleMessage, mapGet_set_self]

/-- Witness for C9: user "u1" in an init whose own id is "new", then a
`user_joined` carrying "u1"'s real color. -/
theorem C9_init_placeholder_color_witness :
    ("u1" ∈ (["u1", "new"] : List String)) ∧
    ("u1" : String) ≠ "new" ∧
    (mapGet (handleMessage ⟨"", ⟨false, none, none, none⟩, [], []⟩
        (.init "print(1)" ["u1", "new"] [] "new" "#ff0")).users "u1" =
      some ⟨"u1", "#999"⟩ ∧
     mapGet (handleMessage ⟨"", ⟨false, none, none, none⟩, [], []⟩
        (.user_joined "u1" "#e91e63")).users "u1" =
      some ⟨"u1", "#e91e63"⟩) := by
  have h := C9_init_placeholder_color ⟨"", ⟨false, none, none, none⟩, [], []⟩
    "print(1)" ["u1", "new"] [] "new" "#ff0" "u1" (by decide) (by decide)
  exact ⟨by decide, by decide,
    h.1, h.2 ⟨"", ⟨false, none, none, none⟩, [], []⟩ "#e91e63"⟩

/-- C2 counterexample: the empty client state satisfies the cursors-⊆-users
invariant, yet handling a single `cursor_move` for a user absent from the
users map produces a state that violates it — the handler upserts the cursor
without any membership check. -/
theorem C2_cursor_move_can_break_invariant :
    cursorsSubsetUsers ⟨"", ⟨false, none, none, none⟩, [], []⟩ = true ∧
    cursorsSubsetUsers
      (handleMessage ⟨"", ⟨false, none, none, none⟩, [], []⟩
        (.cursor_move "u" 1 1 "#f00")) = false :=
  ⟨rfl, rfl⟩

/-- C2 (amended): the subset invariant is preserved by handling any single
message, provided the message is consistent with the server protocol: a
`cursor_move` only for a user already in the users map, and an `init` whose
cursor keys all appear in its user list. `code_update`, `user_joined` and
`user_left` preserve it unconditionally. -/
theorem C2_cursors_subset_users_preserved (s : ClientState)
    (m : ServerMessage) (hs : cursorsSubsetUsers s = true)
    (hm : match m with
      | .init _ us curs _ _ => ∀ p ∈ curs, p.1 ∈ us
      | .cursor_move u _ _ _ => (mapGet s.users u).isSome = true
      | _ => True) :
    cursorsSubsetUsers (handleMessage s m) = true := by
  simp only [cursorsSubsetUsers, List.all_eq_true, decide_eq_true_eq] at hs ⊢
  cases m with
  | init c us curs yourId yourColor =>
    intro p hp
    simp only [handleMessage] at hp ⊢
    have hkey := mem_buildCursorsMap curs p hp
    obtain ⟨q, hq, hq1⟩ := List.mem_map.mp hkey
    have hus : p.1 ∈ us := by
      have := hm q hq
      rwa [hq1] at this
    rw [mapGet_buildUsersMap]
    simp [hus]
  | code_update c uid =>
    intro p hp
    exact hs p hp
  | cursor_move u line column color =>
    intro p hp
    simp only [handleMessage] at hp ⊢
    rcases mem_mapSet _ _ _ _ hp with h | h
    · rw [h]
      exact hm
    · exact hs p h
  | user_joined u color =>
    intro p hp
    simp only [handleMessage] at hp ⊢
    by_cases hpu : p.1 = u
    · rw [hpu, mapGet_set_self]
      rfl
    · rw [mapGet_set_ne _ _ _ _ hpu]
      exact hs p hp
  | user_left u =>
    intro p hp
    simp only [handleMessage] at hp ⊢
    obtain ⟨hpm, hpu⟩ := mem_mapDelete _ _ _ hp
    rw [mapGet_delete_ne _ _ _ hpu]
    exact hs p hpm

/-- Witness for the amended C2: a state where "u" is a user, receiving a
`cursor_move` for "u". -/
theorem C2_cursors_subset_users_preserved_witness :
    cursorsSubsetUsers
      ⟨"", ⟨false, none, none, none⟩, [("u", ⟨"u", "#f00"⟩)], []⟩ = true ∧
    (mapGet ([("u", ⟨"u", "#f00"⟩)] : JsMap UserEntry) "u").isSome = true ∧
    cursorsSubsetUsers
      (handleMessage
        ⟨"", ⟨false, none, none, none⟩, [("u", ⟨"u", "#f00"⟩)], []⟩
        (.cursor_move "u" 1 2 "#f00")) = true :=
  ⟨by decide, by decide,
   C2_cursors_subset_users_preserved
     ⟨"", ⟨false, none, none, none⟩, [("u", ⟨"u", "#f00"⟩)], []⟩
     (.cursor_move "u" 1 2 "#f00") (by decide) (by decide)⟩

/-- C3: evaluation of the close path. An abnormal close (e.g. code 1006)
marks the connection disconnected and schedules a 3000 ms timeout, and a
normal close (code 1000) schedules nothing — but the scheduled timeout's
callback is the empty function of the source: it changes no session state and
constructs no WebSocket, so the client never actually reconnects. -/
theorem C3_reconnect_timeout_body_is_empty (s : ConnectionState)
    (sess : ClientSession) :
    wsOnClose s ⟨1006⟩ = ({ s with isConnected := false }, some ⟨3000⟩) ∧
    wsOnClose s ⟨1000⟩ = ({ s with isConnected := false }, none) ∧
    reconnectTimeoutCallback sess = sess ∧
    (reconnectTimeoutCallback sess).socketGeneration =
      sess.socketGeneration := by
  refine ⟨?_, ?_, rfl, rfl⟩
  · simp [wsOnClose]
  · simp [wsOnClose]

end Coed
